import Mathlib

/-!
Shallow embedding of the ucan-kms core logic:
  * `src/services/ucanValidation.js` — `validateEncryption` / `validateDecryption`
  * the revocation status client — `verifyDelegationChain` / `checkCID` / `checkStatus`
  * `src/handlers/keyDecryption.js` — `handleKeyDecryption` pipeline
  * the KMS client's `_fetchAndValidatePublicKey` retry loop
  * `sanitizeSpaceDIDForKMSKeyId`

JS strings are modelled as Lean `String` (or `List Char` where character-level
reasoning is needed), machine numbers as `Nat`, fallible code as `Except`,
and external collaborators (fetch, the revocation oracle, `access` from
`@ucanto/validator`) as explicit function parameters or result parameters.
-/

namespace UcanKms

/-- A UCAN capability: `can` (action) and `with` (resource).  The field
`with` is a Lean keyword, so it is named `wth`.  A JS `undefined` value of
`cap.with` is modelled as the empty string. -/
structure Cap where
  can : String
  wth : String
deriving DecidableEq, Repr

/-- Capability name constants from `@storacha/capabilities/space`. -/
def encryptionSetupCan : String := "space/encryption/setup"

def encryptionKeyDecryptCan : String := "space/encryption/key/decrypt"

def contentDecryptCan : String := "space/content/decrypt"

/-! ## Validation service (`src/services/ucanValidation.js`)

For this service only the top level of each proof matters, so a proof is
either a bare link (not a delegation object) or a delegation record with
audience, capability list and expiration.  In `@ucanto`, a delegation with
no expiration has `expiration = Infinity`; that is modelled as `none`. -/

/-- A delegation as seen by the validation service. -/
structure UDeleg where
  audience : String
  capabilities : List Cap
  expiration : Option Nat
deriving DecidableEq, Repr

/-- A proof in an invocation's proof list: a bare link or a delegation. -/
inductive UProof where
  | link (cid : String)
  | deleg (d : UDeleg)
deriving DecidableEq, Repr

/-- An invocation as seen by the validation service. -/
structure UInvocation where
  issuer : String
  capabilities : List Cap
  proofs : List UProof
deriving DecidableEq, Repr

/-- `delegation.expiration > now` in JS, where no expiration is `Infinity`. -/
def expGtNow (e : Option Nat) (now : Nat) : Bool :=
  match e with
  | none => true
  | some v => now < v

/-- The filter of `validateDecryption`:
`invocation.proofs.filter(p => p.expiration > now && p.capabilities.some(
  c => c.can === ContentDecrypt.can && c.with === spaceDID))`.
A bare link has `expiration === undefined`, and `undefined > now` is `false`,
so links never pass.  The source keeps the proof objects; we return the
delegation records. -/
def contentDecryptProofs (inv : UInvocation) (spaceDID : String) (now : Nat) :
    List UDeleg :=
  inv.proofs.filterMap fun p =>
    match p with
    | .link _ => none
    | .deleg d =>
        if expGtNow d.expiration now &&
            d.capabilities.any (fun c =>
              c.can == contentDecryptCan && c.wth == spaceDID) then
          some d
        else none

/-- `validateEncryption`: both failure branches `throw`, the surrounding
`catch` returns the fixed generic failure, so every failure is observed by
the caller as `"Encryption validation failed"` (the specific message goes
only to the audit log). -/
def validateEncryption (inv : UInvocation) (spaceDID : String) :
    Except String Bool :=
  match inv.capabilities.find? (fun c => c.can == encryptionSetupCan) with
  | none => .error "Encryption validation failed"
  | some cap =>
      if cap.wth != spaceDID then .error "Encryption validation failed"
      else .ok true

/-- `validateDecryption`.  The chain-authorization call
(`access(...)` from `@ucanto/validator`) is an external library call and is
passed in as `accessResult` (`none` = authorized, `some msg` = the
stringified authorization error).  Each explicit failure branch does
`return error(new Failure(errorMsg))` with the *specific* message; only the
`catch` of an unexpected exception produces the generic
`"Decryption validation failed"`, and the model, being total, has no
exception path. -/
def validateDecryption (inv : UInvocation) (spaceDID : String) (now : Nat)
    (accessResult : Option String) : Except String Bool :=
  match inv.capabilities.find? (fun c => c.can == encryptionKeyDecryptCan) with
  | none =>
      .error ("Invocation does not contain " ++ encryptionKeyDecryptCan ++
        " capability!")
  | some cap =>
      if cap.wth != spaceDID then
        .error ("Invalid \"with\" in the invocation. Decryption is allowed only for files associated with spaceDID: "
          ++ spaceDID ++ "!")
      else
        match contentDecryptProofs inv spaceDID now with
        | [] => .error "No valid ContentDecrypt delegation found in proofs!"
        | d :: _ =>
            if inv.issuer != d.audience then
              .error "The invoker must be equal to the delegated audience!"
            else
              match accessResult with
              | some msg => .error msg
              | none => .ok true

/-! ## Revocation status client (`verifyDelegationChain` and friends)

The proof graph may share sub-delegations and (in principle) contain
cycles, so delegations live in an *arena*: a list of nodes addressed by
their cid string.  A nested proof is either a bare link or a reference to
an arena node. -/

/-- A proof reference: a bare link (not a delegation, filtered out by
`isDelegation`) or a reference to a delegation node by cid. -/
inductive RProof where
  | link (cid : String)
  | node (cid : String)
deriving DecidableEq, Repr

/-- A delegation node of the proof arena. -/
structure DNode where
  cid : String
  capabilities : List Cap
  expiration : Option Nat
  proofs : List RProof
deriving DecidableEq, Repr

/-- Look a delegation up in the arena by cid. -/
def lookupDeleg (arena : List DNode) (cid : String) : Option DNode :=
  arena.find? (fun n => n.cid == cid)

/-- Resolve a proof reference to its delegation object, modelling the
`isDelegation` type test: bare links resolve to nothing. -/
def resolveProof (arena : List DNode) : RProof → Option DNode
  | .link _ => none
  | .node c => lookupDeleg arena c

/-- Top-level filter of `verifyDelegationChain`:
`d.capabilities.some(cap => cap.with && cap.with === spaceDID)`
(the truthiness guard makes an empty/absent `with` fail first). -/
def topSpaceMatch (spaceDID : String) (d : DNode) : Bool :=
  d.capabilities.any fun cap => cap.wth != "" && cap.wth == spaceDID

/-- Nested-proof filter of the traversal:
`d.capabilities.some(cap => cap.with === spaceDID)` (no truthiness guard). -/
def childSpaceMatch (spaceDID : String) (d : DNode) : Bool :=
  d.capabilities.any fun cap => cap.wth == spaceDID

/-- `(proofs || []).filter(isDelegation).filter(d => ...)` — the space-valid
delegations the check starts from. -/
def validDelegations (arena : List DNode) (proofs : List RProof)
    (spaceDID : String) : List DNode :=
  (proofs.filterMap (resolveProof arena)).filter (topSpaceMatch spaceDID)

/-- `current.proofs.filter(isDelegation).filter(d => d.capabilities.some(
cap => cap.with === spaceDID))` — children pushed during the traversal. -/
def spaceValidChildren (arena : List DNode) (spaceDID : String) (d : DNode) :
    List DNode :=
  (d.proofs.filterMap (resolveProof arena)).filter (childSpaceMatch spaceDID)

theorem resolveProof_mem {arena : List DNode} {p : RProof} {d : DNode}
    (h : resolveProof arena p = some d) : d ∈ arena := by
  cases p with
  | link c => simp [resolveProof] at h
  | node c => exact List.mem_of_find?_eq_some h

theorem validDelegations_mem {arena : List DNode} {proofs : List RProof}
    {spaceDID : String} {d : DNode}
    (h : d ∈ validDelegations arena proofs spaceDID) : d ∈ arena := by
  have h' := List.mem_of_mem_filter h
  obtain ⟨p, _, hp⟩ := List.mem_filterMap.mp h'
  exact resolveProof_mem hp

theorem spaceValidChildren_mem {arena : List DNode} {spaceDID : String}
    {c d : DNode} (h : d ∈ spaceValidChildren arena spaceDID c) :
    d ∈ arena := by
  have h' := List.mem_of_mem_filter h
  obtain ⟨p, _, hp⟩ := List.mem_filterMap.mp h'
  exact resolveProof_mem hp

/-- The breadth-first collection loop of `verifyDelegationChain`: pop the
queue head, skip it if its cid is already visited, otherwise record the cid
and enqueue its space-valid nested proofs.  The hypothesis `hq` (every
queued node lives in the arena) carries the invariant the source gets for
free from object identity; it makes the recursion well-founded even on
cyclic arenas (the visited set can only grow inside the finite set of arena
cids). -/
def bfsAux (arena : List DNode) (spaceDID : String) (visited : List String)
    (queue : List DNode) (hq : ∀ d ∈ queue, d ∈ arena) : List String :=
  match queue, hq with
  | [], _ => []
  | current :: rest, hq =>
      if hvis : visited.contains current.cid then
        bfsAux arena spaceDID visited rest
          (fun d hd => hq d (List.mem_cons_of_mem _ hd))
      else
        current.cid ::
          bfsAux arena spaceDID (current.cid :: visited)
            (rest ++ spaceValidChildren arena spaceDID current)
            (fun d hd => by
              rcases List.mem_append.mp hd with h | h
              · exact hq d (List.mem_cons_of_mem _ h)
              · exact spaceValidChildren_mem h)
termination_by
  (((arena.map DNode.cid).toFinset \ visited.toFinset).card, queue.length)
decreasing_by
  · apply Prod.Lex.right
    simp
  · apply Prod.Lex.left
    have hcur : current ∈ arena := hq current (List.mem_cons_self _ _)
    have hc : current.cid ∈ (arena.map DNode.cid).toFinset :=
      List.mem_toFinset.mpr (List.mem_map_of_mem DNode.cid hcur)
    have hnv : current.cid ∉ visited.toFinset := by
      rw [List.mem_toFinset]
      intro h
      exact hvis (by simpa [List.contains] using List.elem_iff.mpr h)
    rw [List.toFinset_cons, Finset.sdiff_insert]
    exact Finset.card_erase_lt_of_mem (Finset.mem_sdiff.mpr ⟨hc, hnv⟩)

/-- `cidsToCheck` as computed by `verifyDelegationChain`: breadth-first from
the space-valid delegations, deduplicating by cid. -/
def collectCids (arena : List DNode) (proofs : List RProof)
    (spaceDID : String) : List String :=
  bfsAux arena spaceDID [] (validDelegations arena proofs spaceDID)
    (fun _ hd => validDelegations_mem hd)

/-- What the oracle `GET {uploadServiceUrl}/revocations/{cid}` produces for
one cid: an HTTP status, or a network error (the fetch rejects). -/
inductive OracleResponse where
  | status (code : Nat)
  | netError
deriving DecidableEq, Repr

/-- The `{isValid, revokedDelegation?, reason?}` record of the checker. -/
structure VOut where
  isValid : Bool
  revokedDelegation : Option String
  reason : Option String
deriving DecidableEq, Repr

/-- `checkCID`: if the shared abort signal has fired, return `null`.
HTTP 200 means explicitly revoked (and triggers the abort); any other HTTP
status falls through to `return null`; a network error is fail-closed as
an invalid result without a `revokedDelegation`.  (An `AbortError` thrown
by an aborted in-flight fetch is also `null`, which the aborted-signal
branch covers in this sequential model.) -/
def checkCID (aborted : Bool) (resp : OracleResponse) (cid : String) :
    Option VOut :=
  if aborted then none
  else
    match resp with
    | .status code =>
        if code == 200 then
          some ⟨false, some cid, some "Delegation explicitly revoked"⟩
        else none
    | .netError => some ⟨false, none, some "Revocation check failed"⟩

/-- Run `checkCID` over the collected cids.  The source uses a concurrency-5
queue; this is the sequential refinement in task order.  Returns the list of
per-cid results plus the cids actually fetched (after a 200 hit the abort
flag is set, so later tasks return `null` without calling the oracle). -/
def runChecksAux (oracle : String → OracleResponse) :
    List String → Bool → List (Option VOut) × List String
  | [], _ => ([], [])
  | c :: rest, aborted =>
      let r := checkCID aborted (oracle c) c
      let fired :=
        aborted ||
          match r with
          | some v => v.revokedDelegation.isSome
          | none => false
      let (rs, qs) := runChecksAux oracle rest fired
      (r :: rs, (if aborted then [] else [c]) ++ qs)

/-- The results scan of `verifyDelegationChain`: return the first fulfilled
non-null result with `isValid === false`. -/
def firstInvalid (rs : List (Option VOut)) : Option VOut :=
  rs.findSome? fun r =>
    match r with
    | some v => if v.isValid then none else some v
    | none => none

/-- `verifyDelegationChain(proofs, spaceDID, uploadServiceUrl)`.  Returns
the `{isValid, ...}` outcome paired with the list of cids the oracle was
actually asked about.  `url = none` models an unset/empty
`uploadServiceUrl`. -/
def verifyDelegationChain (arena : List DNode) (proofs : List RProof)
    (spaceDID : String) (url : Option String)
    (oracle : String → OracleResponse) : VOut × List String :=
  if validDelegations arena proofs spaceDID = [] then
    (⟨false, none, some ("No valid delegations found for space " ++ spaceDID)⟩,
      [])
  else if url = none then
    (⟨false, none,
      some "No revocation service URL configured - cannot validate delegation status"⟩,
      [])
  else
    let cids := collectCids arena proofs spaceDID
    let (rs, qs) := runChecksAux oracle cids false
    match firstInvalid rs with
    | some v => (v, qs)
    | none => (⟨true, none, none⟩, qs)

/-- `RevocationStatusClientImpl.checkStatus`: `ok(true)` when the chain
verifies, otherwise an error carrying `result.reason` (or the fallback
message). -/
def checkStatus (arena : List DNode) (proofs : List RProof)
    (spaceDID : String) (url : Option String)
    (oracle : String → OracleResponse) : Except String Bool :=
  let v := (verifyDelegationChain arena proofs spaceDID url oracle).1
  if v.isValid then .ok true
  else .error (v.reason.getD "Unable to check revocation status")

/-! ## Decrypt handler (`src/handlers/keyDecryption.js`)

The handler awaits its four collaborators strictly in order and returns on
the first error.  The collaborators are external from the handler's point
of view, so their results are parameters; the returned trace records which
collaborators were actually invoked, in call order. -/

/-- The four pipeline stages of `handleKeyDecryption`. -/
inductive Stage where
  | validation
  | subscription
  | revocation
  | kms
deriving DecidableEq, Repr

/-- `handleKeyDecryption(request, invocation, ctx, env)`.
`identityConfigured` models `ctx.ucanKmsIdentity` being set and
`hasEncryptedKey` models `request.encryptedSymmetricKey` being present;
`vres`, `pres`, `rres`, `kres` are the results of
`validateDecryption`, `isProvisioned`, `checkStatus` and
`decryptSymmetricKey`.  Returns the handler result and the ordered list of
collaborators invoked. -/
def handleKeyDecryption (identityConfigured : Bool) (hasEncryptedKey : Bool)
    (vres : Except String Bool) (pres : Except String Bool)
    (rres : Except String Bool) (kres : Except String String) :
    Except String String × List Stage :=
  if !identityConfigured then
    (.error "Encryption not available - ucanKms identity not configured", [])
  else if !hasEncryptedKey then
    (.error "Missing encryptedSymmetricKey in invocation", [])
  else
    match vres with
    | .error e => (.error e, [.validation])
    | .ok _ =>
        match pres with
        | .error e => (.error e, [.validation, .subscription])
        | .ok _ =>
            match rres with
            | .error e => (.error e, [.validation, .subscription, .revocation])
            | .ok _ =>
                match kres with
                | .error e =>
                    (.error e,
                      [.validation, .subscription, .revocation, .kms])
                | .ok k =>
                    (.ok k,
                      [.validation, .subscription, .revocation, .kms])

/-! ## Public-key fetch retry loop (`_fetchAndValidatePublicKey`)

`pRetry(run, { retries: 5, factor: 2, minTimeout: 1000, maxTimeout: 10000 })`
wrapped in a 30-second `AbortController` deadline.  An attempt is described
by its wall-clock duration in milliseconds and its HTTP outcome (status
code plus whether a 400 body carries the `PENDING_GENERATION` /
`is not enabled` marker). -/

/-- Classification of one HTTP response of the public-key fetch. -/
inductive FetchClass where
  | success
  | retryable
  | abort
deriving DecidableEq, Repr

/-- The response classification of `_fetchAndValidatePublicKey`:
`response.ok` (2xx) succeeds; 404 and 403 retry; 400 retries only with the
still-generating marker in the body, otherwise aborts; any 5xx retries;
every other status aborts (`AbortError`). -/
def classifyPubKeyResponse (code : Nat) (pendingMarker : Bool) : FetchClass :=
  if 200 ≤ code && code ≤ 299 then .success
  else if code == 404 then .retryable
  else if code == 403 then .retryable
  else if code == 400 then
    if pendingMarker then .retryable else .abort
  else if 500 ≤ code then .retryable
  else .abort

/-- The backoff before retry number `i` (0-based), per the `retry` package:
`min(minTimeout * factor^i, maxTimeout)` with `minTimeout = 1000`,
`factor = 2`, `maxTimeout = 10000`. -/
def backoffDelay (i : Nat) : Nat :=
  min (1000 * 2 ^ i) 10000

/-- One attempt of the fetch: duration in ms, HTTP status, marker flag. -/
structure Attempt where
  duration : Nat
  code : Nat
  pendingMarker : Bool

/-- Outcome of the whole fetch operation, carrying the number of fetch
calls issued.  `timeout` is the 30-second overall deadline firing (the
abort signal cancels the in-flight or next request and the operation fails
with the timeout audit message regardless of retries remaining). -/
inductive FetchResult where
  | success (fetches : Nat)
  | failed (fetches : Nat)
  | timeout (fetches : Nat)
deriving DecidableEq, Repr

/-- The deadline of the overall `AbortController`, in ms. -/
def overallDeadline : Nat := 30000

/-- The retry loop: `i` is the index of the next attempt, `remaining` the
number of attempts still allowed (initially `retries + 1 = 6`), `elapsed`
the wall-clock ms consumed so far.  The deadline is checked when a fetch
would start (signal already aborted) and when it would complete (aborted
in flight). -/
def fetchLoop (attempts : Nat → Attempt) :
    Nat → Nat → Nat → FetchResult
  | _, 0, _ => .failed 0
  | i, r + 1, elapsed =>
      if overallDeadline ≤ elapsed then .timeout i
      else if overallDeadline ≤ elapsed + (attempts i).duration then
        .timeout (i + 1)
      else
        match classifyPubKeyResponse (attempts i).code
            (attempts i).pendingMarker with
        | .success => .success (i + 1)
        | .abort => .failed (i + 1)
        | .retryable =>
            if r = 0 then .failed (i + 1)
            else
              fetchLoop attempts (i + 1) r
                (elapsed + (attempts i).duration + backoffDelay i)

/-- `_fetchAndValidatePublicKey`'s retry behaviour: 1 initial attempt plus
`retries: 5`, from time zero. -/
def fetchAndValidatePublicKey (attempts : Nat → Attempt) : FetchResult :=
  fetchLoop attempts 0 6 0

/-- Number of fetch calls a `FetchResult` records. -/
def FetchResult.fetches : FetchResult → Nat
  | .success n => n
  | .failed n => n
  | .timeout n => n

/-! ## `sanitizeSpaceDIDForKMSKeyId`

Character-level reasoning is needed, so the input is a `List Char`. -/

/-- The `did:key:` prefix as characters. -/
def didKeyPrefix : List Char := "did:key:".data

/-- `spaceDID.replace(/^did:key:/, '')`: strip one leading `did:key:`. -/
def stripDidKey (s : List Char) : List Char :=
  if didKeyPrefix.isPrefixOf s then s.drop 8 else s

/-- The `/^[a-zA-Z0-9]+$/` character test. -/
def isAlnumChar (c : Char) : Bool :=
  ('a' ≤ c && c ≤ 'z') || ('A' ≤ c && c ≤ 'Z') || ('0' ≤ c && c ≤ '9')

/-- `sanitizeSpaceDIDForKMSKeyId`: strip the `did:key:` prefix, then require
exactly 48 characters, all alphanumeric; otherwise throw (modelled as
`Except.error` with the thrown message). -/
def sanitizeSpaceDIDForKMSKeyId (spaceDID : List Char) :
    Except String (List Char) :=
  let keyId := stripDidKey spaceDID
  if keyId.length != 48 then
    .error "Invalid Space DID format. Expected exactly 48 characters after removing did:key: prefix."
  else if !(keyId.all isAlnumChar && !keyId.isEmpty) then
    .error "Invalid Space DID format. Must contain only letters and numbers."
  else
    .ok keyId

/-! ## Concrete fixtures used by witnesses and counterexamples -/

/-- A space DID used by the fixtures. -/
def spaceX : String := "did:key:zSpace"

/-- Arena node `cidA`: a content-decrypt delegation for `spaceX` whose
nested proofs reach `cidB` and the shared `cidC`. -/
def dA : DNode := ⟨"cidA", [⟨contentDecryptCan, spaceX⟩], none,
  [.node "cidB", .node "cidC"]⟩

/-- Arena node `cidB`: expired (`expiration = 0`), a non-decrypt capability
for `spaceX`, and a cyclic back-edge to `cidA` plus the shared `cidC`. -/
def dB : DNode := ⟨"cidB", [⟨"some/other", spaceX⟩], some 0,
  [.node "cidA", .node "cidC"]⟩

/-- Arena node `cidC`: a leaf delegation for `spaceX`, shared by `cidA`
and `cidB`. -/
def dC : DNode := ⟨"cidC", [⟨contentDecryptCan, spaceX⟩], none, []⟩

/-- An arena whose proof graph has a cycle (`cidA ↔ cidB`) and a shared
sub-delegation (`cidC`, reachable from both). -/
def cycArena : List DNode := [dA, dB, dC]

/-- An oracle that answers 404 (not revoked) for every cid. -/
def oracle404 : String → OracleResponse := fun _ => .status 404

/-- An oracle that answers 500 for every cid. -/
def oracle500 : String → OracleResponse := fun _ => .status 500

/-- An oracle that answers 200 (revoked) for `cidB` and 404 otherwise. -/
def oracleHitB : String → OracleResponse :=
  fun c => if c == "cidB" then .status 200 else .status 404

/-- The `space/encryption/key/decrypt` capability for `spaceX`. -/
def keyDecryptCapX : Cap := ⟨encryptionKeyDecryptCan, spaceX⟩

/-- The `space/content/decrypt` capability for `spaceX`. -/
def contentDecryptCapX : Cap := ⟨contentDecryptCan, spaceX⟩

/-- An unexpired content-decrypt delegation whose audience is NOT the
invocation issuer below. -/
def delegBadAud : UDeleg := ⟨"did:key:zOther", [contentDecryptCapX], none⟩

/-- An unexpired content-decrypt delegation whose audience IS the
invocation issuer below. -/
def delegGoodAud : UDeleg := ⟨"did:key:zAlice", [contentDecryptCapX], none⟩

/-- An invocation carrying the decrypt capability whose proof list holds
the bad-audience delegation first and the good-audience one second. -/
def invTwoProofs : UInvocation :=
  ⟨"did:key:zAlice", [keyDecryptCapX], [.deleg delegBadAud, .deleg delegGoodAud]⟩

/-- An invocation with no capabilities at all. -/
def invNoCap : UInvocation := ⟨"did:key:zAlice", [], []⟩

/-- A content-decrypt delegation expiring at Unix second 5. -/
def delegExp5 : UDeleg := ⟨"did:key:zAlice", [contentDecryptCapX], some 5⟩

/-- An invocation whose only proof is the delegation expiring at 5. -/
def invExpired : UInvocation :=
  ⟨"did:key:zAlice", [keyDecryptCapX], [.deleg delegExp5]⟩

/-- Attempt sequence: 404 twice, then 200, each call taking 100 ms. -/
def attempts404x2then200 : Nat → Attempt :=
  fun i => ⟨100, if 2 ≤ i then 200 else 404, false⟩

/-- Attempt sequence: every call answers 404 instantly. -/
def attemptsAll404 : Nat → Attempt := fun _ => ⟨0, 404, false⟩

/-- Attempt sequence: 404 on the first five calls, 200 on the sixth. -/
def attempts404x5then200 : Nat → Attempt :=
  fun i => ⟨0, if i == 5 then 200 else 404, false⟩

/-- Attempt sequence: every call takes the full 30-second deadline. -/
def attemptsSlow : Nat → Attempt := fun _ => ⟨30000, 404, false⟩

/-! ## Helper lemmas -/

theorem bfsAux_nodup (arena : List DNode) (spaceDID : String) :
    ∀ (visited : List String) (queue : List DNode)
      (hq : ∀ d ∈ queue, d ∈ arena),
      (∀ c ∈ bfsAux arena spaceDID visited queue hq, c ∉ visited) ∧
      (bfsAux arena spaceDID visited queue hq).Nodup := by
  intro visited queue hq
  induction visited, queue, hq using bfsAux.induct arena spaceDID with
  | case1 visited hq _ =>
      simp [bfsAux]
  | case2 visited current rest hq hvis _ ih =>
      have hm : current.cid ∈ visited :=
        List.elem_iff.mp (by simpa [List.contains] using hvis)
      simpa [bfsAux, hm] using ih
  | case3 visited current rest hq hvis _ ih =>
      have hcv : current.cid ∉ visited := fun h =>
        hvis (by simpa [List.contains] using List.elem_iff.mpr h)
      rw [bfsAux, dif_neg hvis]
      constructor
      · intro c hc
        rcases List.mem_cons.mp hc with rfl | hc
        · exact hcv
        · exact fun hm => ih.1 c hc (List.mem_cons_of_mem _ hm)
      · refine List.nodup_cons.mpr ⟨fun hmem => ?_, ih.2⟩
        exact ih.1 current.cid hmem (List.mem_cons_self _ _)

/-! ## Claims -/

theorem fetchLoop_fetches_le (attempts : Nat → Attempt) :
    ∀ (r i elapsed : Nat),
      (fetchLoop attempts i r elapsed).fetches ≤ i + r := by
  intro r
  induction r with
  | zero =>
      intro i e
      simp [fetchLoop, FetchResult.fetches]
  | succ r ih =>
      intro i e
      rw [fetchLoop]
      by_cases h1 : overallDeadline ≤ e
      · rw [if_pos h1]
        simp only [FetchResult.fetches]
        omega
      · rw [if_neg h1]
        by_cases h2 : overallDeadline ≤ e + (attempts i).duration
        · rw [if_pos h2]
          simp only [FetchResult.fetches]
          omega
        · rw [if_neg h2]
          split
          · simp only [FetchResult.fetches]
            omega
          · simp only [FetchResult.fetches]
            omega
          · by_cases h3 : r = 0
            · rw [if_pos h3]
              simp only [FetchResult.fetches]
              omega
            · rw [if_neg h3]
              have h := ih (i + 1) (e + (attempts i).duration + backoffDelay i)
              omega

/-- C7: for every proof DAG — shared sub-delegations and cycles included —
the breadth-first traversal of the revocation checker enumerates each
distinct delegation identifier exactly once (the collected cid list has no
duplicates, so at most one oracle lookup per identifier) and terminates.
Termination is intrinsic: `bfsAux` is a total function, and the second
conjunct computes it on an arena with a cycle (`cidA ↔ cidB`) and a shared
node (`cidC` reachable from both), where the shared node appears exactly
once. -/
theorem C7_bfs_dedup_and_terminates :
    (∀ (arena : List DNode) (proofs : List RProof) (spaceDID : String),
      (collectCids arena proofs spaceDID).Nodup) ∧
    collectCids cycArena [.node "cidA"] spaceX = ["cidA", "cidB", "cidC"] := by
  constructor
  · intro arena proofs spaceDID
    exact (bfsAux_nodup arena spaceDID [] _ _).2
  · simp [collectCids, bfsAux, validDelegations, spaceValidChildren,
      resolveProof, lookupDeleg, topSpaceMatch, childSpaceMatch, cycArena,
      dA, dB, dC, spaceX, contentDecryptCan]

/-- C9: the tenant-identifier sanitizer is a deterministic total mapping:
for every input it either returns the input with its `did:key:` prefix
removed — the result being exactly 48 characters, all alphanumeric, and
otherwise unaltered (the input is literally the prefix plus the result, or
the result itself when the prefix is absent) — or it rejects the input
with one of the two invalid-format errors.  It never truncates. -/
theorem C9_sanitize_total_characterization :
    ∀ s : List Char,
      (∃ k, sanitizeSpaceDIDForKMSKeyId s = .ok k ∧
        (s = didKeyPrefix ++ k ∨ s = k) ∧
        k.length = 48 ∧ k.all isAlnumChar = true) ∨
      (∃ e, sanitizeSpaceDIDForKMSKeyId s = .error e ∧
        (e = "Invalid Space DID format. Expected exactly 48 characters after removing did:key: prefix." ∨
         e = "Invalid Space DID format. Must contain only letters and numbers.")) := by
  intro s
  by_cases h48 : (stripDidKey s).length = 48
  · by_cases hal :
        ((stripDidKey s).all isAlnumChar && !(stripDidKey s).isEmpty) = true
    · left
      have hall : (stripDidKey s).all isAlnumChar = true := by
        cases h : (stripDidKey s).all isAlnumChar
        · rw [h] at hal
          simp at hal
        · rfl
      refine ⟨stripDidKey s, ?_, ?_, h48, hall⟩
      · simp [sanitizeSpaceDIDForKMSKeyId, h48, hal]
      · by_cases hp : didKeyPrefix.isPrefixOf s
        · left
          obtain ⟨t, ht⟩ := List.isPrefixOf_iff_prefix.mp hp
          have hdrop : s.drop 8 = t := by
            rw [← ht]
            exact List.drop_left didKeyPrefix t
          have hstrip : stripDidKey s = s.drop 8 := by
            simp [stripDidKey, hp]
          rw [hstrip, hdrop, ht]
        · right
          simp [stripDidKey, hp]
    · right
      refine ⟨_, ?_, Or.inr rfl⟩
      simp [sanitizeSpaceDIDForKMSKeyId, h48, hal]
  · right
    refine ⟨_, ?_, Or.inl rfl⟩
    simp [sanitizeSpaceDIDForKMSKeyId, h48]

/-- C6: a delegation whose expiration in Unix seconds is less than or
EQUAL to the wall-clock time at validation is never accepted as a
content-decrypt delegation (first two conjuncts), and when no unexpired
matching proof exists — the capability checks having passed — decrypt
validation fails with the no-decrypt-delegation error (third conjunct). -/
theorem C6_expired_delegations_rejected :
    (∀ (e now : Nat), e ≤ now → expGtNow (some e) now = false) ∧
    (∀ (inv : UInvocation) (spaceDID : String) (now : Nat) (d : UDeleg)
      (e : Nat), d.expiration = some e → e ≤ now →
      d ∉ contentDecryptProofs inv spaceDID now) ∧
    (∀ (inv : UInvocation) (spaceDID : String) (now : Nat)
      (accessResult : Option String) (cap : Cap),
      inv.capabilities.find? (fun c => c.can == encryptionKeyDecryptCan) =
        some cap →
      cap.wth = spaceDID →
      contentDecryptProofs inv spaceDID now = [] →
      validateDecryption inv spaceDID now accessResult =
        .error "No valid ContentDecrypt delegation found in proofs!") := by
  refine ⟨?_, ?_, ?_⟩
  · intro e now h
    simp [expGtNow]
    omega
  · intro inv spaceDID now d e hexp hle hmem
    obtain ⟨p, _, hp⟩ := List.mem_filterMap.mp hmem
    cases p with
    | link c => simp [contentDecryptProofs] at hp
    | deleg d' =>
        simp only [contentDecryptProofs] at hp
        split at hp
        · rename_i hcond
          obtain rfl : d' = d := by simpa using hp
          rw [hexp] at hcond
          have : expGtNow (some e) now = false := by
            simp [expGtNow]
            omega
          rw [this] at hcond
          simp at hcond
        · simp at hp
  · intro inv spaceDID now accessResult cap hfind hwth hnone
    simp only [validateDecryption, hfind]
    have : (cap.wth != spaceDID) = false := by simp [hwth]
    rw [this]
    simp only [Bool.false_eq_true, if_false, hnone]

/-- C6 witness: the invocation `invExpired` carries the decrypt capability
for `spaceX` and a single content-decrypt proof expiring at second 5;
validated at `now = 5` (the exactly-equal case), the proof is expired, no
unexpired matching proof remains, and validation fails with the
no-decrypt-delegation error. -/
theorem C6_expired_delegations_rejected_witness :
    expGtNow (some 5) 5 = false ∧
    delegExp5 ∉ contentDecryptProofs invExpired spaceX 5 ∧
    validateDecryption invExpired spaceX 5 none =
      .error "No valid ContentDecrypt delegation found in proofs!" :=
  ⟨C6_expired_delegations_rejected.1 5 5 (by decide),
   C6_expired_delegations_rejected.2.1 invExpired spaceX 5 delegExp5 5 rfl
     (by decide),
   C6_expired_delegations_rejected.2.2 invExpired spaceX 5 none keyDecryptCapX
     rfl rfl rfl⟩

/-- C10: among the proofs that pass the unexpired content-decrypt filter,
only the FIRST (in proof-list order) is used for the audience check: if its
audience differs from the invocation issuer, validation fails with the
audience error even when a later filtered proof has the correct
audience. -/
theorem C10_first_proof_audience_only :
    ∀ (inv : UInvocation) (spaceDID : String) (now : Nat)
      (accessResult : Option String) (cap : Cap) (d : UDeleg)
      (rest : List UDeleg),
      inv.capabilities.find? (fun c => c.can == encryptionKeyDecryptCan) =
        some cap →
      cap.wth = spaceDID →
      contentDecryptProofs inv spaceDID now = d :: rest →
      inv.issuer ≠ d.audience →
      (∃ d' ∈ rest, d'.audience = inv.issuer) →
      validateDecryption inv spaceDID now accessResult =
        .error "The invoker must be equal to the delegated audience!" := by
  intro inv spaceDID now accessResult cap d rest hfind hwth hcons haud _
  simp only [validateDecryption, hfind]
  have hw : (cap.wth != spaceDID) = false := by simp [hwth]
  rw [hw]
  simp only [Bool.false_eq_true, if_false, hcons]
  have ha : (inv.issuer != d.audience) = true := by simpa using haud
  rw [ha]
  simp

/-- C10 witness: `invTwoProofs` has two unexpired content-decrypt proofs;
the first has the wrong audience (`did:key:zOther`), the second the right
one (`did:key:zAlice`, the issuer) — validation still fails with the
audience error. -/
theorem C10_first_proof_audience_only_witness :
    validateDecryption invTwoProofs spaceX 0 none =
      .error "The invoker must be equal to the delegated audience!" :=
  C10_first_proof_audience_only invTwoProofs spaceX 0 none keyDecryptCapX
    delegBadAud [delegGoodAud] rfl rfl rfl (by decide)
    ⟨delegGoodAud, by decide⟩

/-- C3 counterexample: decrypt validation of an invocation lacking the
decrypt capability fails with the SPECIFIC message naming the missing
capability, not the fixed generic "Decryption validation failed" the claim
requires for every decrypt-validation failure. -/
theorem C3_counterexample :
    validateDecryption invNoCap spaceX 0 none =
      .error "Invocation does not contain space/encryption/key/decrypt capability!" ∧
    "Invocation does not contain space/encryption/key/decrypt capability!" ≠
      "Decryption validation failed" := by
  constructor
  · rfl
  · decide

/-- C3 amended: encryption-setup validation failures are always observed by
the caller as the fixed generic "Encryption validation failed" (the specific
reason is thrown internally, caught, and surfaced only to the audit
collaborator).  Decrypt validation, however, returns the SPECIFIC failure
message on each explicit failure path — missing capability, resource
mismatch, no valid delegation, audience mismatch, or the authorization
error text — with the generic "Decryption validation failed" reserved for
unexpected exceptions. -/
theorem C3_amended_message_policy :
    (∀ (inv : UInvocation) (spaceDID : String),
      validateEncryption inv spaceDID = .ok true ∨
      validateEncryption inv spaceDID = .error "Encryption validation failed") ∧
    (∀ (inv : UInvocation) (spaceDID : String) (now : Nat)
      (accessResult : Option String),
      validateDecryption inv spaceDID now accessResult = .ok true ∨
      ∃ m, validateDecryption inv spaceDID now accessResult = .error m ∧
        (m = "Invocation does not contain " ++ encryptionKeyDecryptCan ++
            " capability!" ∨
         m = "Invalid \"with\" in the invocation. Decryption is allowed only for files associated with spaceDID: "
            ++ spaceDID ++ "!" ∨
         m = "No valid ContentDecrypt delegation found in proofs!" ∨
         m = "The invoker must be equal to the delegated audience!" ∨
         accessResult = some m)) := by
  constructor
  · intro inv spaceDID
    unfold validateEncryption
    split
    · exact Or.inr rfl
    · split
      · exact Or.inr rfl
      · exact Or.inl rfl
  · intro inv spaceDID now accessResult
    unfold validateDecryption
    cases accessResult with
    | none =>
        split
        · exact Or.inr ⟨_, rfl, Or.inl rfl⟩
        · split
          · exact Or.inr ⟨_, rfl, Or.inr (Or.inl rfl)⟩
          · split
            · exact Or.inr ⟨_, rfl, Or.inr (Or.inr (Or.inl rfl))⟩
            · split
              · exact Or.inr ⟨_, rfl, Or.inr (Or.inr (Or.inr (Or.inl rfl)))⟩
              · exact Or.inl rfl
    | some msg =>
        split
        · exact Or.inr ⟨_, rfl, Or.inl rfl⟩
        · split
          · exact Or.inr ⟨_, rfl, Or.inr (Or.inl rfl)⟩
          · split
            · exact Or.inr ⟨_, rfl, Or.inr (Or.inr (Or.inl rfl))⟩
            · split
              · exact Or.inr ⟨_, rfl, Or.inr (Or.inr (Or.inr (Or.inl rfl)))⟩
              · exact Or.inr ⟨msg, rfl,
                  Or.inr (Or.inr (Or.inr (Or.inr rfl)))⟩

/-- C5: with the context configured (identity present, encrypted key
present), the decrypt pipeline runs validation, subscription, revocation
and the KMS call strictly in that order (the invocation trace is a prefix
of the canonical order), short-circuits on the first failing stage
(returning exactly that stage's error), and invokes the KMS backend if and
only if validation, entitlement and revocation all succeeded. -/
theorem C5_pipeline_order_shortcircuit :
    ∀ (vres pres rres : Except String Bool) (kres : Except String String),
      ((handleKeyDecryption true true vres pres rres kres).2 <+:
        [Stage.validation, Stage.subscription, Stage.revocation, Stage.kms]) ∧
      (Stage.kms ∈ (handleKeyDecryption true true vres pres rres kres).2 ↔
        (∃ a, vres = .ok a) ∧ (∃ b, pres = .ok b) ∧ (∃ c, rres = .ok c)) ∧
      (∀ e, vres = .error e →
        handleKeyDecryption true true vres pres rres kres =
          (.error e, [Stage.validation])) ∧
      (∀ a e, vres = .ok a → pres = .error e →
        handleKeyDecryption true true vres pres rres kres =
          (.error e, [Stage.validation, Stage.subscription])) ∧
      (∀ a b e, vres = .ok a → pres = .ok b → rres = .error e →
        handleKeyDecryption true true vres pres rres kres =
          (.error e,
            [Stage.validation, Stage.subscription, Stage.revocation])) ∧
      (∀ a b c e, vres = .ok a → pres = .ok b → rres = .ok c →
        kres = .error e →
        handleKeyDecryption true true vres pres rres kres =
          (.error e,
            [Stage.validation, Stage.subscription, Stage.revocation,
              Stage.kms])) := by
  intro vres pres rres kres
  cases vres <;> cases pres <;> cases rres <;> cases kres <;>
    simp [handleKeyDecryption]

/-- C5 witness: with every stage succeeding, the trace is the full
canonical order (so the KMS stage was reached), and with a failing
revocation stage the pipeline stops at revocation with that error. -/
theorem C5_pipeline_order_shortcircuit_witness :
    (Stage.kms ∈
      (handleKeyDecryption true true (.ok true) (.ok true) (.ok true)
        (.ok "k")).2) ∧
    handleKeyDecryption true true (.ok true) (.ok true) (.error "revoked")
        (.ok "k") =
      (.error "revoked",
        [Stage.validation, Stage.subscription, Stage.revocation]) :=
  ⟨(C5_pipeline_order_shortcircuit (.ok true) (.ok true) (.ok true)
      (.ok "k")).2.1.mpr ⟨⟨true, rfl⟩, ⟨true, rfl⟩, ⟨true, rfl⟩⟩,
   (C5_pipeline_order_shortcircuit (.ok true) (.ok true) (.error "revoked")
      (.ok "k")).2.2.2.2.1 true true "revoked" rfl rfl rfl⟩

/-- C8: when the revocation oracle base URL is unset, the revocation check
fails closed — `verifyDelegationChain` reports the oracle-unavailable
reason without asking the oracle anything (provided the space-valid
delegation set is nonempty, the code path the claim describes), and
`checkStatus` surfaces it as an error; any revocation-stage error makes the
pipeline return an error without ever invoking the KMS stage. -/
theorem C8_missing_oracle_url_fails_closed :
    ∀ (arena : List DNode) (proofs : List RProof) (spaceDID : String)
      (oracle : String → OracleResponse) (vres pres : Except String Bool)
      (kres : Except String String),
      validDelegations arena proofs spaceDID ≠ [] →
      (verifyDelegationChain arena proofs spaceDID none oracle =
        (⟨false, none,
          some "No revocation service URL configured - cannot validate delegation status"⟩,
          [])) ∧
      (checkStatus arena proofs spaceDID none oracle =
        .error "No revocation service URL configured - cannot validate delegation status") ∧
      (∀ a b, vres = .ok a → pres = .ok b →
        handleKeyDecryption true true vres pres
            (checkStatus arena proofs spaceDID none oracle) kres =
          (.error "No revocation service URL configured - cannot validate delegation status",
            [Stage.validation, Stage.subscription, Stage.revocation])) ∧
      (∀ (idc hek : Bool) (rres : Except String Bool) (e : String),
        rres = .error e →
        Stage.kms ∉ (handleKeyDecryption idc hek vres pres rres kres).2) := by
  intro arena proofs spaceDID oracle vres pres kres hne
  have hverify : verifyDelegationChain arena proofs spaceDID none oracle =
      (⟨false, none,
        some "No revocation service URL configured - cannot validate delegation status"⟩,
        []) := by
    simp [verifyDelegationChain, hne]
  have hstatus : checkStatus arena proofs spaceDID none oracle =
      .error "No revocation service URL configured - cannot validate delegation status" := by
    simp [checkStatus, hverify]
  refine ⟨hverify, hstatus, ?_, ?_⟩
  · intro a b ha hb
    rw [hstatus, ha, hb]
    rfl
  · intro idc hek rres e hr
    rw [hr]
    cases idc <;> cases hek <;> cases vres <;> cases pres <;>
      simp [handleKeyDecryption]

/-- C8 witness: the cyclic fixture arena has a nonempty space-valid
delegation set; with no oracle URL the check fails closed with the
oracle-unavailable reason and the pipeline stops before the KMS stage. -/
theorem C8_missing_oracle_url_fails_closed_witness :
    checkStatus cycArena [.node "cidA"] spaceX none oracle404 =
      .error "No revocation service URL configured - cannot validate delegation status" ∧
    handleKeyDecryption true true (.ok true) (.ok true)
        (checkStatus cycArena [.node "cidA"] spaceX none oracle404)
        (.ok "k") =
      (.error "No revocation service URL configured - cannot validate delegation status",
        [Stage.validation, Stage.subscription, Stage.revocation]) := by
  have h := C8_missing_oracle_url_fails_closed cycArena [.node "cidA"] spaceX
    oracle404 (.ok true) (.ok true) (.ok "k")
    (by simp [validDelegations, resolveProof, lookupDeleg, topSpaceMatch,
      cycArena, dA, dB, dC, spaceX, contentDecryptCan])
  exact ⟨h.2.1, h.2.2.1 true true rfl rfl⟩

/-- C4 counterexample: `pRetry` is configured with `retries: 5`, which is
five RETRIES on top of the initial attempt — six fetch attempts in total,
not "5 attempts in total" as claimed: a key that answers 404 five times and
succeeds on the sixth call still succeeds, with six fetches issued, all
within the 30-second deadline (backoff sleeps total 25 s). -/
theorem C4_counterexample :
    fetchAndValidatePublicKey attempts404x5then200 = .success 6 ∧ 5 < 6 := by
  constructor
  · rfl
  · decide

/-- C4 amended: the public-key fetch retries only retryable responses —
404, 403, a 400 carrying the still-generating marker, and any 5xx; any
other 4xx aborts without retry — with exponential backoff starting at 1 s,
factor 2, capped at 10 s per attempt, for up to SIX attempts in total (one
initial attempt plus `retries: 5`), all under an overall 30-second deadline
whose expiry fails the operation as a timeout regardless of attempts
remaining. -/
theorem C4_amended_retry_policy :
    (∀ p, classifyPubKeyResponse 404 p = .retryable) ∧
    (∀ p, classifyPubKeyResponse 403 p = .retryable) ∧
    classifyPubKeyResponse 400 true = .retryable ∧
    classifyPubKeyResponse 400 false = .abort ∧
    (∀ (c : Nat) (p : Bool), 500 ≤ c → classifyPubKeyResponse c p = .retryable) ∧
    (∀ (c : Nat) (p : Bool), 400 ≤ c → c < 500 → c ≠ 400 → c ≠ 403 →
      c ≠ 404 → classifyPubKeyResponse c p = .abort) ∧
    backoffDelay 0 = 1000 ∧
    (∀ i, backoffDelay (i + 1) = min (2 * backoffDelay i) 10000) ∧
    (∀ i, backoffDelay i ≤ 10000) ∧
    (∀ attempts, (fetchAndValidatePublicKey attempts).fetches ≤ 6) ∧
    (∀ (attempts : Nat → Attempt) (i r elapsed : Nat),
      overallDeadline ≤ elapsed →
      fetchLoop attempts i (r + 1) elapsed = .timeout i) ∧
    (∀ (attempts : Nat → Attempt) (i r elapsed : Nat),
      elapsed < overallDeadline →
      overallDeadline ≤ elapsed + (attempts i).duration →
      fetchLoop attempts i (r + 1) elapsed = .timeout (i + 1)) ∧
    fetchAndValidatePublicKey attemptsSlow = .timeout 1 ∧
    fetchAndValidatePublicKey attempts404x2then200 = .success 3 := by
  refine ⟨fun p => rfl, fun p => rfl, rfl, rfl, ?_, ?_, rfl, ?_, ?_, ?_, ?_,
    ?_, rfl, rfl⟩
  · intro c p h
    unfold classifyPubKeyResponse
    split_ifs with h1 h2 h3 h4 h5 <;> first
      | rfl
      | (exfalso; simp_all; try omega)
  · intro c p h1 h2 h3 h4 h5
    unfold classifyPubKeyResponse
    split_ifs with g1 g2 g3 g4 g5 <;> first
      | rfl
      | (exfalso; simp_all; try omega)
  · intro i
    simp only [backoffDelay, pow_succ]
    ring_nf
    omega
  · intro i
    simp [backoffDelay]
  · intro attempts
    simpa [fetchAndValidatePublicKey] using fetchLoop_fetches_le attempts 6 0 0
  · intro attempts i r elapsed h
    rw [fetchLoop, if_pos h]
  · intro attempts i r elapsed h1 h2
    rw [fetchLoop, if_neg (by omega), if_pos h2]

/-- C4 witness: instances of the amended policy at concrete inputs — a 503
retries, a 401 aborts, the attempt count of the all-404 run is six (≤ 6),
and an attempt taking the whole deadline times out. -/
theorem C4_amended_retry_policy_witness :
    classifyPubKeyResponse 503 false = .retryable ∧
    classifyPubKeyResponse 401 false = .abort ∧
    (fetchAndValidatePublicKey attemptsAll404).fetches ≤ 6 ∧
    fetchLoop attemptsSlow 0 6 0 = .timeout 1 :=
  ⟨C4_amended_retry_policy.2.2.2.2.1 503 false (by decide),
   C4_amended_retry_policy.2.2.2.2.2.1 401 false (by decide) (by decide)
     (by decide) (by decide) (by decide),
   C4_amended_retry_policy.2.2.2.2.2.2.2.2.2.1 attemptsAll404,
   C4_amended_retry_policy.2.2.2.2.2.2.2.2.2.2.2.1 attemptsSlow 0 5 0
     (by decide) (by decide)⟩

/-- C1 counterexample: the claim says any HTTP status other than 200 and
404 is treated as revoked (fail-closed); in the code, `checkCID` returns
`null` for every non-200 status, so an oracle answering 500 yields an
overall VALID result — here on a one-node chain, with the oracle consulted
about exactly that node. -/
theorem C1_counterexample :
    checkCID false (.status 500) "cidC" = none ∧
    verifyDelegationChain [dC] [.node "cidC"] spaceX (some "https://oracle")
        oracle500 =
      (⟨true, none, none⟩, ["cidC"]) := by
  constructor
  · rfl
  · simp [verifyDelegationChain, validDelegations, resolveProof, lookupDeleg,
      topSpaceMatch, collectCids, bfsAux, spaceValidChildren, childSpaceMatch,
      runChecksAux, firstInvalid, checkCID, oracle500, dC, spaceX,
      contentDecryptCan]

/-- C1 amended: per oracle lookup, HTTP 200 means revoked (and the overall
result carries that delegation's identifier, later nodes not being
fetched); EVERY other HTTP status — 404 included — means not revoked for
that node; only a network error is treated as revoked (fail-closed,
without an identifier).  The last conjunct shows the 200-propagation on
the fixture arena: `cidB` revoked ⇒ overall revoked at `cidB`, and `cidC`
is never fetched. -/
theorem C1_amended_oracle_outcomes :
    (∀ cid, checkCID false (.status 200) cid =
      some ⟨false, some cid, some "Delegation explicitly revoked"⟩) ∧
    (∀ cid (code : Nat), code ≠ 200 →
      checkCID false (.status code) cid = none) ∧
    (∀ cid, checkCID false .netError cid =
      some ⟨false, none, some "Revocation check failed"⟩) ∧
    verifyDelegationChain cycArena [.node "cidA"] spaceX
        (some "https://oracle") oracleHitB =
      (⟨false, some "cidB", some "Delegation explicitly revoked"⟩,
        ["cidA", "cidB"]) := by
  refine ⟨fun cid => rfl, ?_, fun cid => rfl, ?_⟩
  · intro cid code h
    simp [checkCID, h]
  · simp [verifyDelegationChain, validDelegations, resolveProof, lookupDeleg,
      topSpaceMatch, collectCids, bfsAux, spaceValidChildren, childSpaceMatch,
      runChecksAux, firstInvalid, checkCID, oracleHitB, cycArena, dA, dB, dC,
      spaceX, contentDecryptCan]

/-- C1 amended witness: a 404 and a 503 are both "not revoked" per node. -/
theorem C1_amended_oracle_outcomes_witness :
    checkCID false (.status 404) "cidX" = none ∧
    checkCID false (.status 503) "cidX" = none :=
  ⟨C1_amended_oracle_outcomes.2.1 "cidX" 404 (by decide),
   C1_amended_oracle_outcomes.2.1 "cidX" 503 (by decide)⟩

/-- C2 counterexample: node `cidB` is expired (`expiration = 0 ≤ now`) and
carries no decrypt capability, only a `some/other` capability whose `with`
matches the space; the claim's filter would drop it (empty set ⇒ fail
without contacting the oracle), but the code's filter keeps it, traverses
it, and asks the oracle about it — the check even succeeding on an all-404
oracle. -/
theorem C2_counterexample :
    expGtNow dB.expiration 1000 = false ∧
    dB.capabilities.all (fun c => c.can != contentDecryptCan) = true ∧
    validDelegations [dB] [.node "cidB"] spaceX = [dB] ∧
    verifyDelegationChain [dB] [.node "cidB"] spaceX (some "https://oracle")
        oracle404 =
      (⟨true, none, none⟩, ["cidB"]) := by
  refine ⟨rfl, by decide, ?_, ?_⟩
  · simp [validDelegations, resolveProof, lookupDeleg, topSpaceMatch, dB,
      spaceX]
  · simp [verifyDelegationChain, validDelegations, resolveProof, lookupDeleg,
      topSpaceMatch, collectCids, bfsAux, spaceValidChildren, childSpaceMatch,
      runChecksAux, firstInvalid, checkCID, oracle404, dB, spaceX]

/-- C2 amended: the revocation check filters the supplied proofs to
delegations carrying ANY capability whose (non-empty) `with` equals the
target resource — expiration and the capability name are not consulted —
and only when THAT set is empty does it fail with the
no-relevant-delegation error, without contacting the oracle. -/
theorem C2_amended_filter :
    (∀ (arena : List DNode) (proofs : List RProof) (spaceDID : String)
      (d : DNode),
      d ∈ validDelegations arena proofs spaceDID ↔
        ((∃ p ∈ proofs, resolveProof arena p = some d) ∧
          ∃ cap ∈ d.capabilities, cap.wth ≠ "" ∧ cap.wth = spaceDID)) ∧
    (∀ (arena : List DNode) (proofs : List RProof) (spaceDID : String)
      (url : Option String) (oracle : String → OracleResponse),
      validDelegations arena proofs spaceDID = [] →
      verifyDelegationChain arena proofs spaceDID url oracle =
        (⟨false, none,
          some ("No valid delegations found for space " ++ spaceDID)⟩, [])) := by
  constructor
  · intro arena proofs spaceDID d
    simp [validDelegations, List.mem_filter, List.mem_filterMap, topSpaceMatch,
      List.any_eq_true, and_assoc]
  · intro arena proofs spaceDID url oracle h
    simp [verifyDelegationChain, h]

/-- C2 amended witness: an empty proof list filters to the empty set and
the check fails with the no-relevant-delegation error without any oracle
call; and `dB` is in the filtered set of the counterexample input. -/
theorem C2_amended_filter_witness :
    verifyDelegationChain [] [] spaceX (some "https://oracle") oracle404 =
      (⟨false, none,
        some ("No valid delegations found for space " ++ spaceX)⟩, []) ∧
    dB ∈ validDelegations [dB] [.node "cidB"] spaceX :=
  ⟨C2_amended_filter.2 [] [] spaceX (some "https://oracle") oracle404 rfl,
   (C2_amended_filter.1 [dB] [.node "cidB"] spaceX dB).mpr
     ⟨⟨.node "cidB", by decide, by rfl⟩,
      ⟨⟨"some/other", spaceX⟩, by decide, by decide, rfl⟩⟩⟩

end UcanKms
